import Mathlib

/-!
Shallow embedding of `compress.go` (go-http-utils/compress).

The file models the response-compression middleware of `compress.go`:
the `compressWriter` decorator (methods `Header`, `WriteHeader`, `Write`)
and the `Handler` constructor, together with the interfaces they consume
(`http.ResponseWriter`, `io.WriteCloser`, the encoding negotiator, the
compressible classifier and the two compressor constructors).

Conventions.
* A byte sequence is a list of naturals below 256.
* `http.Header` is a map from canonical header names to value lists; an
  absent name and a name bound to no value are both the empty list, as
  `Header.Get` cannot tell them apart.
* An interface value whose state is mutated by its methods is a record of
  state transformers over a state type `S` (`Sink S`).
* A downstream handler is a finite interaction tree (`Prog`): it may read
  and mutate the header map, write a status, write body bytes and react to
  the result of each write, return, or terminate abnormally.
* The `io.WriteCloser` held by the wrapper is the nil interface, a nil
  `*flate.Writer` (the discarded error of `flate.NewWriter`), or a
  compressor; a compressor is opaque and given by the chunks it emits.
* Events that are not calls on the original sink (negotiation, construction
  of a compressor, invocation of the downstream handler, writes that reach
  the compressor, close) are logged in a ghost trace through `Sink.note`.
  The ghost trace is never read by the code.
-/

namespace Compress

/-! ## Byte sequences and headers -/

/-- A byte sequence (`[]byte`). -/
abbrev Bytes := List Nat

/-- The map `http.Header`: values bound to each canonical header name. -/
structure Header where
  vals : String → List String

/-- The empty header map. -/
def Header.empty : Header := ⟨fun _ => []⟩

/-- The method `Header.Get`: the first value bound to the key, or the empty string. -/
def Header.Get (h : Header) (key : String) : String := (h.vals key).headD ""

/-- The method `Header.Set`: replaces the values of the key by the single value. -/
def Header.Set (h : Header) (key value : String) : Header :=
  ⟨fun k => if k = key then [value] else h.vals k⟩

/-- The method `Header.Add`: appends the value to the values of the key. -/
def Header.Add (h : Header) (key value : String) : Header :=
  ⟨fun k => if k = key then h.vals k ++ [value] else h.vals k⟩

/-- The method `Header.Del`: removes every value of the key. -/
def Header.Del (h : Header) (key : String) : Header :=
  ⟨fun k => if k = key then [] else h.vals k⟩

/-- The constant `headers.ContentLength`. -/
def ContentLength : String := "Content-Length"
/-- The constant `headers.ContentEncoding`. -/
def ContentEncoding : String := "Content-Encoding"
/-- The constant `headers.ContentType`. -/
def ContentType : String := "Content-Type"
/-- The constant `headers.Vary`. -/
def Vary : String := "Vary"
/-- The constant `headers.AcceptEncoding`. -/
def AcceptEncoding : String := "Accept-Encoding"
/-- The constant `http.MethodHead`. -/
def MethodHead : String := "HEAD"
/-- The constant `http.StatusNotAcceptable`. -/
def StatusNotAcceptable : Int := 406
/-- The constant `flate.DefaultCompression`. -/
def DefaultCompression : Int := -1

/-- The offers handed to the negotiator, in the order of the source. -/
def offers : List String := ["gzip", "deflate"]

/-- The body of the 406 response. The text is ASCII, so each character is
one byte, equal to its code point. -/
def notAcceptableBody : Bytes :=
  "supported encodings: gzip, deflate".toList.map Char.toNat

/-- The request: its method and its header map (`req.Method`, `req.Header`). -/
structure Request where
  Method : String
  Header : Compress.Header

/-! ## Outcomes, events, interfaces -/

/-- How a call ends: it returns, or it panics. -/
inductive Outcome where
  | returned
  | panicked
  deriving DecidableEq, Repr

/-- Ghost events of one request. -/
inductive Event where
  /-- the Negotiator was consulted -/
  | negotiate
  /-- a compressor for the encoding was constructed -/
  | create (encoding : String)
  /-- the downstream handler was invoked; `wrapped` tells whether its sink is
  the `compressWriter`, `hdr` is the header map at that moment -/
  | serve (wrapped : Bool) (hdr : Header)
  /-- the downstream handler invocation ended -/
  | serveEnd (o : Outcome)
  /-- a `Write` reached the compressor -/
  | compWrite (b : Bytes)
  /-- the compressor was closed -/
  | close

/-- The value returned by a `Write`: `none` when the call panicked,
otherwise the byte count and the error (`none` for `nil`). -/
abbrev WriteResult := Option (Int × Option String)

/-- An `http.ResponseWriter` whose mutable state has type `S`. `Header`
reads the map returned by `Header()`, `mutHeader` mutates that map in place,
`note` logs a ghost event. -/
structure Sink (S : Type) where
  Header : S → Compress.Header
  mutHeader : (Compress.Header → Compress.Header) → S → S
  WriteHeader : Int → S → S
  Write : Bytes → S → S × WriteResult
  note : Event → S → S

/-- A streaming compressor (`*gzip.Writer`, `*flate.Writer`), opaque: it is
given by what it does after the writes `hist` received since construction.
`onWrite hist b` are the chunks it writes to its output on `Write(b)`,
`result hist b` is what that `Write` returns, `onClose hist` are the chunks
it writes to its output on `Close()`. -/
structure Codec where
  onWrite : List Bytes → Bytes → List Bytes
  result : List Bytes → Bytes → Int × Option String
  onClose : List Bytes → List Bytes

/-- The chunks a compressor that has received `hist` writes to its output
when it is written `ws` in order and then closed. -/
def Codec.emitAll (c : Codec) (hist : List Bytes) : List Bytes → List Bytes
  | [] => c.onClose hist
  | b :: bs => c.onWrite hist b ++ c.emitAll (hist ++ [b]) bs

/-- The output of a fresh compressor written `ws` in order and then closed. -/
def Codec.compress (c : Codec) (ws : List Bytes) : Bytes :=
  (c.emitAll [] ws).flatten

/-- A value of the interface `io.WriteCloser` as `Handler` may hold it in
`w`: the nil interface (the zero value of `var w io.WriteCloser`), a nil
`*flate.Writer` (what `w, _ = flate.NewWriter(...)` stores when the
constructor fails: the interface is not nil, the pointer in it is), or a
compressor. -/
inductive WriteCloser where
  | nil
  | nilWriter
  | writer (c : Codec)

/-- Whether the interface value itself is nil. -/
def WriteCloser.isNil : WriteCloser → Bool
  | .nil => true
  | _ => false

/-- The collaborators of `Handler`: `compressible.Test`, the negotiator
(`negotiator.New(req).Encoding(offers)`), `gzip.NewWriter` and
`flate.NewWriter` (which fails for some levels: `none`). -/
structure Env where
  compressible : String → Bool
  negotiate : Request → List String → String × Bool
  gzipNewWriter : Codec
  flateNewWriter : Int → Option Codec

/-! ## The original sink -/

/-- A call received by the original sink, with the header map at that
moment. -/
inductive Call where
  | WriteHeader (status : Int) (hdr : Header)
  | Write (b : Bytes) (hdr : Header)

/-- The body bytes a call carries. -/
def Call.body : Call → Bytes
  | .WriteHeader _ _ => []
  | .Write b _ => b

/-- The header map a call was made under. -/
def Call.hdr : Call → Header
  | .WriteHeader _ h => h
  | .Write _ h => h

/-- The status a call carries. -/
def Call.status : Call → Option Int
  | .WriteHeader s _ => some s
  | .Write _ _ => none

/-- The state of the original response sink: its header map, the calls it
has received, and the ghost trace. -/
structure Response where
  header : Header
  calls : List Call
  trace : List Event

/-- The body bytes that reached the sink. -/
def Response.body (r : Response) : Bytes := (r.calls.map Call.body).flatten

/-- The statuses written on the sink, in order. -/
def Response.statuses (r : Response) : List Int := r.calls.filterMap Call.status

/-- The original response sink: it records the calls it receives and
accepts every write in full. -/
def original : Sink Response where
  Header := fun r => r.header
  mutHeader := fun f r => { r with header := f r.header }
  WriteHeader := fun s r => { r with calls := r.calls ++ [Call.WriteHeader s r.header] }
  Write := fun b r =>
    ({ r with calls := r.calls ++ [Call.Write b r.header] }, some ((b.length : Int), none))
  note := fun e r => { r with trace := r.trace ++ [e] }

/-! ## compressWriter -/

/-- Writes the chunks to the sink in order, stopping at a panic; the flag
tells whether every write returned. -/
def writeAll {S : Type} (rw : Sink S) : List Bytes → S → S × Bool
  | [], s => (s, true)
  | b :: bs, s =>
    match rw.Write b s with
    | (s1, some _) => writeAll rw bs s1
    | (s1, none) => (s1, false)

/-- The struct `compressWriter`: the underlying sink `rw` and the compressor
`w`. The compressor writes to `rw`. The mutable state behind a
`compressWriter` is the state of `rw` together with the writes its
compressor has received. -/
structure compressWriter (S : Type) where
  rw : Sink S
  w : WriteCloser

/-- The method `compressWriter.Header`: the header map of the underlying sink. -/
def compressWriter.Header {S : Type} (cw : compressWriter S) (st : S × List Bytes) : Compress.Header :=
  cw.rw.Header st.1

/-- The method `compressWriter.WriteHeader`: removes Content-Length from the
header map of the underlying sink, then writes the status on that sink. -/
def compressWriter.WriteHeader {S : Type} (cw : compressWriter S) (status : Int)
    (st : S × List Bytes) : S × List Bytes :=
  let s := cw.rw.mutHeader (fun h => h.Del ContentLength) st.1
  (cw.rw.WriteHeader status s, st.2)

/-- The method `compressWriter.Write`: removes Content-Length from the
header map of the underlying sink, then writes the bytes to the compressor
(a call on the nil interface or on a nil `*flate.Writer` panics), whose
chunks go to the underlying sink. -/
def compressWriter.Write {S : Type} (cw : compressWriter S) (b : Bytes)
    (st : S × List Bytes) : (S × List Bytes) × WriteResult :=
  let s := cw.rw.mutHeader (fun h => h.Del ContentLength) st.1
  match cw.w with
  | .nil => ((s, st.2), none)
  | .nilWriter => ((s, st.2), none)
  | .writer c =>
    let s := cw.rw.note (Event.compWrite b) s
    match writeAll cw.rw (c.onWrite st.2 b) s with
    | (s1, true) => ((s1, st.2 ++ [b]), some (c.result st.2 b))
    | (s1, false) => ((s1, st.2 ++ [b]), none)

/-- The `compressWriter` as an `http.ResponseWriter`. -/
def compressWriter.toSink {S : Type} (cw : compressWriter S) : Sink (S × List Bytes) where
  Header := cw.Header
  mutHeader := fun f st => (cw.rw.mutHeader f st.1, st.2)
  WriteHeader := cw.WriteHeader
  Write := cw.Write
  note := fun e st => (cw.rw.note e st.1, st.2)

/-! ## Handlers -/

/-- An `http.Handler`: given a sink and a request it transforms the state
behind the sink and returns or panics. -/
abbrev HandlerFunc : Type 1 := (S : Type) → Sink S → Request → S → S × Outcome

/-- The behaviour of a downstream handler on the sink it is given. -/
inductive Prog where
  /-- returns -/
  | ret : Prog
  /-- panics -/
  | panic : Prog
  /-- reads the header map -/
  | header : (Header → Prog) → Prog
  /-- mutates the header map -/
  | mutHeader : (Header → Header) → Prog → Prog
  /-- calls `WriteHeader` -/
  | WriteHeader : Int → Prog → Prog
  /-- calls `Write` and goes on with what it returned -/
  | Write : Bytes → (Int × Option String → Prog) → Prog

/-- Runs a downstream handler on a sink. -/
def Prog.run {S : Type} (sink : Sink S) : Prog → S → S × Outcome
  | .ret, s => (s, Outcome.returned)
  | .panic, s => (s, Outcome.panicked)
  | .header k, s => (k (sink.Header s)).run sink s
  | .mutHeader f k, s => k.run sink (sink.mutHeader f s)
  | .WriteHeader status k, s => k.run sink (sink.WriteHeader status s)
  | .Write b k, s =>
    match sink.Write b s with
    | (s1, some r) => (k r).run sink s1
    | (s1, none) => (s1, Outcome.panicked)

/-- The `http.Handler` of a downstream behaviour that may depend on the
request. -/
def serve (p : Request → Prog) : HandlerFunc :=
  fun _ sink req s => (p req).run sink s

/-- The `switch encoding` of `Handler`: the value bound to `w`. The error
of `flate.NewWriter` is discarded, so a failed construction leaves a nil
`*flate.Writer` in `w`; an encoding that is neither case leaves `w` nil. -/
def newWriter (env : Env) (encoding : String) : WriteCloser :=
  if encoding = "gzip" then WriteCloser.writer env.gzipNewWriter
  else if encoding = "deflate" then
    match env.flateNewWriter DefaultCompression with
    | some c => WriteCloser.writer c
    | none => WriteCloser.nilWriter
  else WriteCloser.nil

/-- The three eligibility pre-checks of `Handler`. -/
def eligible (env : Env) (req : Request) (hdr : Header) : Bool :=
  decide (req.Method ≠ MethodHead) &&
  decide (hdr.Get ContentEncoding = "") &&
  env.compressible (req.Header.Get ContentType)

/-- The deferred `cw.w.Close()`: the compressor writes its last chunks to
the sink; on a nil `*flate.Writer` the call panics. The flag tells whether
the call returned. -/
def closeWriter {S : Type} (res : Sink S) : WriteCloser → S × List Bytes → S × Bool
  | .nil, st => (st.1, false)
  | .nilWriter, st => (st.1, false)
  | .writer c, st => writeAll res (c.onClose st.2) (res.note Event.close st.1)

/-- The function `Handler`: wraps the handler `h` with compress support.
A nil interface in `cw.w` panics at the `defer` statement, before `h` is
invoked; the deferred close runs when `h` has returned or panicked. -/
def Handler (env : Env) (h : HandlerFunc) : HandlerFunc :=
  fun S res req s =>
    if eligible env req (res.Header s) then
      let s := res.note Event.negotiate s
      let (encoding, matched) := env.negotiate req offers
      if !matched then
        let s := res.WriteHeader StatusNotAcceptable s
        match res.Write notAcceptableBody s with
        | (s, some _) => (s, Outcome.returned)
        | (s, none) => (s, Outcome.panicked)
      else
        let w := newWriter env encoding
        let s := match w with
          | .writer _ => res.note (Event.create encoding) s
          | _ => s
        let cw : compressWriter S := { rw := res, w := w }
        let s := res.mutHeader (fun hd => hd.Set ContentEncoding encoding) s
        let s := res.mutHeader (fun hd => hd.Set Vary AcceptEncoding) s
        if w.isNil then (s, Outcome.panicked)
        else
          let s := res.note (Event.serve true (res.Header s)) s
          let (st, o) := h (S × List Bytes) cw.toSink req (s, [])
          let st := (res.note (Event.serveEnd o) st.1, st.2)
          match closeWriter res w st with
          | (s1, true) => (s1, o)
          | (s1, false) => (s1, Outcome.panicked)
    else
      let s := res.note (Event.serve false (res.Header s)) s
      let (s, o) := h S res req s
      (res.note (Event.serveEnd o) s, o)

/-! ## Reading the ghost trace -/

/-- Whether the event is the construction of a compressor. -/
def Event.isCreate : Event → Bool
  | .create _ => true
  | _ => false

/-- Whether the event is the close of the compressor. -/
def Event.isClose : Event → Bool
  | .close => true
  | _ => false

/-- Whether the event is an invocation of the downstream handler. -/
def Event.isServe : Event → Bool
  | .serve _ _ => true
  | _ => false

/-- Whether the event is a consultation of the Negotiator. -/
def Event.isNegotiate : Event → Bool
  | .negotiate => true
  | _ => false

/-- The events logged since the state `r`. -/
def Response.since (r2 r : Response) : List Event := r2.trace.drop r.trace.length

/-- The arguments of the `Write` calls a downstream handler makes, in order,
when it runs on the sink from the state. -/
def Prog.writes {S : Type} (sink : Sink S) : Prog → S → List Bytes
  | .ret, _ => []
  | .panic, _ => []
  | .header k, s => (k (sink.Header s)).writes sink s
  | .mutHeader f k, s => k.writes sink (sink.mutHeader f s)
  | .WriteHeader status k, s => k.writes sink (sink.WriteHeader status s)
  | .Write b k, s =>
    match sink.Write b s with
    | (s1, some res) => b :: (k res).writes sink s1
    | (_, none) => [b]

/-- One step of a downstream handler that does not look at what the sink
answers. -/
inductive Op where
  | Write (b : Bytes)
  | WriteHeader (status : Int)
  | mutHeader (f : Header → Header)

/-- The bytes of a step that is a `Write`. -/
def Op.written : Op → Option Bytes
  | .Write b => some b
  | _ => none

/-- A downstream handler that makes the steps in order and returns, whatever
the writes return. -/
def Prog.ofOps : List Op → Prog
  | [] => Prog.ret
  | Op.Write b :: ops => Prog.Write b (fun _ => Prog.ofOps ops)
  | Op.WriteHeader status :: ops => Prog.WriteHeader status (Prog.ofOps ops)
  | Op.mutHeader f :: ops => Prog.mutHeader f (Prog.ofOps ops)

/-! ## Concrete collaborators -/

/-- A negotiator that returns the first offer among the acceptable ones,
for an acceptability test `acc`. -/
def firstOffer (acc : Request → String → Bool) (req : Request) (offs : List String) :
    String × Bool :=
  match offs.find? (acc req) with
  | some o => (o, true)
  | none => ("", false)

/-- The failure condition of `flate.NewWriter`: the constructor of the
standard library returns an error exactly for a level outside `[-2, 9]`. -/
def goFlateNewWriter (c : Codec) (level : Int) : Option Codec :=
  if -2 ≤ level ∧ level ≤ 9 then some c else none

/-- A toy gzip: a two-byte magic before the first chunk, the chunks as they
are, a zero byte at close. -/
def toyGzip : Codec where
  onWrite := fun hist b => if hist.isEmpty then [[31, 139], b] else [b]
  result := fun _ b => ((b.length : Int), none)
  onClose := fun hist => if hist.isEmpty then [[31, 139], [0]] else [[0]]

/-- A toy deflate: the chunks as they are, two bytes at close. -/
def toyDeflate : Codec where
  onWrite := fun _ b => [b]
  result := fun _ b => ((b.length : Int), none)
  onClose := fun _ => [[3, 0]]

/-- A concrete environment: text is compressible, the negotiator returns the
first offer listed among the values of the request's Accept-Encoding. -/
def demoEnv : Env where
  compressible := fun t => t == "text/plain" || t == "text/html"
  negotiate := firstOffer (fun req o => (req.Header.vals AcceptEncoding).contains o)
  gzipNewWriter := toyGzip
  flateNewWriter := goFlateNewWriter toyDeflate

/-- A request with the method, the Accept-Encoding values and the
Content-Type. -/
def mkRequest (method : String) (accept : List String) (ctype : String) : Request where
  Method := method
  Header := ⟨fun k => if k = AcceptEncoding then accept else if k = ContentType then [ctype] else []⟩

/-- A GET request that accepts gzip and deflate and carries text. -/
def demoRequest : Request := mkRequest "GET" ["gzip", "deflate"] "text/plain"

/-- A fresh response sink. -/
def Response.fresh : Response := ⟨Header.empty, [], []⟩

/-- The handler of the test suite: status 200, then the bytes of "Hello". -/
def helloHandlerFunc : Request → Prog :=
  fun _ => Prog.WriteHeader 200 (Prog.Write [72, 101, 108, 108, 111] (fun _ => Prog.ret))

/-- The `compressWriter` of `Handler` on the original sink, holding `w`. -/
def cwOn (w : WriteCloser) : compressWriter Response := { rw := original, w := w }

/-- The `compressWriter` of `Handler` on the original sink, bound to the
compressor `c`. -/
def cwOriginal (c : Codec) : compressWriter Response := cwOn (WriteCloser.writer c)

/-- An environment whose deflate constructor fails at every level. -/
def failingEnv : Env where
  compressible := fun _ => true
  negotiate := fun _ _ => ("deflate", true)
  gzipNewWriter := toyGzip
  flateNewWriter := fun _ => none

/-- The header map `Handler` leaves before it invokes the downstream handler
on the match path. -/
def matchHeader (hdr : Header) (encoding : String) : Header :=
  (hdr.Set ContentEncoding encoding).Set Vary AcceptEncoding

/-- The state of the original sink at the moment `Handler` invokes the
downstream handler on the match path with encoding `e`. -/
def matchStart (r : Response) (e : String) : Response :=
  ⟨matchHeader r.header e, r.calls,
   r.trace ++ [Event.negotiate, Event.create e, Event.serve true (matchHeader r.header e)]⟩

/-- The state of the original sink at the moment `Handler` invokes the
downstream handler when `w` holds a nil `*flate.Writer`. -/
def nilStart (r : Response) (e : String) : Response :=
  ⟨matchHeader r.header e, r.calls,
   r.trace ++ [Event.negotiate, Event.serve true (matchHeader r.header e)]⟩

/-- What `Handler` does on the match path once the downstream handler has
ended with `out`: it logs the end and the deferred close writes the last
chunks of the compressor `c` to the original sink. -/
def matchEnd (c : Codec) (out : (Response × List Bytes) × Outcome) : Response × Outcome :=
  (⟨out.1.1.header,
    out.1.1.calls ++ (c.onClose out.1.2).map (fun x => Call.Write x out.1.1.header),
    out.1.1.trace ++ [Event.serveEnd out.2, Event.close]⟩, out.2)

/-- The ghost trace of a request on the match path: negotiation, one
construction, one invocation of the downstream handler with the wrapper
under the header map `hdr`, the writes `ws` that reach the compressor, the
end of the invocation, one close. -/
def matchTrace (e : String) (hdr : Header) (ws : List Bytes) (o : Outcome) : List Event :=
  [Event.negotiate, Event.create e, Event.serve true hdr] ++ ws.map Event.compWrite
    ++ [Event.serveEnd o, Event.close]

/-- A downstream handler that sets Content-Length to `0` and returns
without writing. -/
def emptyWithLength : Request → Prog :=
  fun _ => Prog.mutHeader (fun h => h.Set ContentLength "0") Prog.ret

/-- A downstream handler that writes the bytes of "Hello" and sets
Content-Length to `5` after that write. -/
def lengthAfterWrite : Request → Prog :=
  fun _ => Prog.Write [72, 101, 108, 108, 111]
    (fun _ => Prog.mutHeader (fun h => h.Set ContentLength "5") Prog.ret)

/-- A downstream handler that writes a chunk, panics if the write reports an
error, and otherwise writes a second chunk and panics. -/
def panicking : Request → Prog :=
  fun _ => Prog.Write [1, 2] (fun res =>
    match res.2 with
    | some _ => Prog.panic
    | none => Prog.Write [3] (fun _ => Prog.panic))

/-- A response sink whose Content-Type is already set to an image type. -/
def Response.image : Response := ⟨Header.empty.Set ContentType "image/png", [], []⟩

/-! ## Lemmas: headers -/

theorem Header.Get_Set_same (h : Header) (k v : String) : (h.Set k v).Get k = v := by
  simp [Header.Get, Header.Set]

theorem Header.vals_Set_of_ne (h : Header) (k k2 v : String) (hk : k2 ≠ k) :
    (h.Set k v).vals k2 = h.vals k2 := by
  simp [Header.Set, hk]

theorem Header.vals_Del_same (h : Header) (k : String) : (h.Del k).vals k = [] := by
  simp [Header.Del]

theorem Header.vals_Del_of_ne (h : Header) (k k2 : String) (hk : k2 ≠ k) :
    (h.Del k).vals k2 = h.vals k2 := by
  simp [Header.Del, hk]

theorem matchHeader_encoding (hdr : Header) (e : String) :
    (matchHeader hdr e).vals ContentEncoding = [e] := by
  simp [matchHeader, Header.Set, ContentEncoding, Vary]

theorem matchHeader_vary (hdr : Header) (e : String) :
    (matchHeader hdr e).vals Vary = [AcceptEncoding] := by
  simp [matchHeader, Header.Set]

/-! ## Lemmas: the original sink -/

theorem writeAll_original (cs : List Bytes) (r : Response) :
    writeAll original cs r
      = ({ r with calls := r.calls ++ cs.map (fun b => Call.Write b r.header) }, true) := by
  induction cs generalizing r with
  | nil => simp [writeAll]
  | cons b bs ih =>
    simp only [writeAll, original] at ih ⊢
    rw [ih]
    simp

theorem run_original_trace (p : Prog) (r : Response) (t : List Event) :
    p.run original { r with trace := t }
      = ({ (p.run original r).1 with trace := t }, (p.run original r).2) := by
  induction p generalizing r with
  | ret => simp [Prog.run]
  | panic => simp [Prog.run]
  | header k ih => simpa [Prog.run, original] using ih _ r
  | mutHeader f k ih => simpa [Prog.run, original] using ih { r with header := f r.header }
  | WriteHeader st k ih =>
    simpa [Prog.run, original] using
      ih { r with calls := r.calls ++ [Call.WriteHeader st r.header] }
  | Write b k ih =>
    simpa [Prog.run, original] using
      ih _ { r with calls := r.calls ++ [Call.Write b r.header] }

theorem run_original_trace_eq (p : Prog) (r : Response) :
    (p.run original r).1.trace = r.trace := by
  have h : p.run original r
      = ({ (p.run original r).1 with trace := r.trace }, (p.run original r).2) :=
    run_original_trace p r r.trace
  exact congrArg (fun x => x.1.trace) h

/-! ## Lemmas: the compressWriter on the original sink -/

theorem cwOn_WriteHeader (w : WriteCloser) (status : Int) (r : Response)
    (hist : List Bytes) :
    (cwOn w).WriteHeader status (r, hist)
      = ({ header := r.header.Del ContentLength,
           calls := r.calls ++ [Call.WriteHeader status (r.header.Del ContentLength)],
           trace := r.trace }, hist) := by
  simp [compressWriter.WriteHeader, cwOn, original]

theorem cwOriginal_WriteHeader (c : Codec) (status : Int) (r : Response) (hist : List Bytes) :
    (cwOriginal c).WriteHeader status (r, hist)
      = ({ header := r.header.Del ContentLength,
           calls := r.calls ++ [Call.WriteHeader status (r.header.Del ContentLength)],
           trace := r.trace }, hist) :=
  cwOn_WriteHeader _ status r hist

theorem cwOn_Write_nilWriter (b : Bytes) (r : Response) (hist : List Bytes) :
    (cwOn WriteCloser.nilWriter).Write b (r, hist)
      = ((⟨r.header.Del ContentLength, r.calls, r.trace⟩, hist), none) := by
  simp [compressWriter.Write, cwOn, original]

theorem cwOn_Write_nil (b : Bytes) (r : Response) (hist : List Bytes) :
    (cwOn WriteCloser.nil).Write b (r, hist)
      = ((⟨r.header.Del ContentLength, r.calls, r.trace⟩, hist), none) := by
  simp [compressWriter.Write, cwOn, original]

theorem cwOriginal_Write (c : Codec) (b : Bytes) (r : Response) (hist : List Bytes) :
    (cwOriginal c).Write b (r, hist)
      = (({ header := r.header.Del ContentLength,
            calls := r.calls ++
              (c.onWrite hist b).map (fun x => Call.Write x (r.header.Del ContentLength)),
            trace := r.trace ++ [Event.compWrite b] }, hist ++ [b]),
          some (c.result hist b)) := by
  simp only [compressWriter.Write, cwOriginal, cwOn, writeAll_original]
  rfl

theorem body_append_writes (calls : List Call) (cs : List Bytes) (hdr : Header) :
    ((calls ++ cs.map (fun x => Call.Write x hdr)).map Call.body).flatten
      = (calls.map Call.body).flatten ++ cs.flatten := by
  have h : (cs.map (fun x => Call.Write x hdr)).map Call.body = cs := by
    simp [Function.comp_def, Call.body]
  rw [List.map_append, List.flatten_append, h]

/-! ## Lemmas: the paths of Handler on the original sink -/

theorem Handler_passthrough (env : Env) (p : Request → Prog) (req : Request) (r : Response)
    (hel : eligible env req r.header = false) :
    Handler env (serve p) Response original req r
      = (⟨((p req).run original r).1.header, ((p req).run original r).1.calls,
          r.trace ++ [Event.serve false r.header,
            Event.serveEnd ((p req).run original r).2]⟩,
         ((p req).run original r).2) := by
  have hel0 : eligible env req (original.Header r) = false := hel
  have ht := run_original_trace (p req) r (r.trace ++ [Event.serve false r.header])
  simp only [Handler, hel0, serve]
  simp only [original] at ht ⊢
  simp [ht]

theorem Handler_notAcceptable (env : Env) (h : HandlerFunc) (req : Request) (r : Response)
    (e : String) (hel : eligible env req r.header = true)
    (hneg : env.negotiate req offers = (e, false)) :
    Handler env h Response original req r
      = (⟨r.header,
          r.calls ++ [Call.WriteHeader StatusNotAcceptable r.header,
            Call.Write notAcceptableBody r.header],
          r.trace ++ [Event.negotiate]⟩, Outcome.returned) := by
  have hel0 : eligible env req (original.Header r) = true := hel
  simp only [Handler, hel0, hneg]
  simp [original]

theorem Handler_nilWriter (env : Env) (h : HandlerFunc) (req : Request) (r : Response)
    (e : String) (hel : eligible env req r.header = true)
    (hneg : env.negotiate req offers = (e, true)) (hw : newWriter env e = WriteCloser.nil) :
    Handler env h Response original req r
      = (⟨matchHeader r.header e, r.calls, r.trace ++ [Event.negotiate]⟩,
         Outcome.panicked) := by
  have hel0 : eligible env req (original.Header r) = true := hel
  simp only [Handler, hel0, hneg, hw, WriteCloser.isNil]
  simp [original, matchHeader]

theorem Handler_nilFlate (env : Env) (h : HandlerFunc) (req : Request) (r : Response)
    (e : String) (hel : eligible env req r.header = true)
    (hneg : env.negotiate req offers = (e, true))
    (hw : newWriter env e = WriteCloser.nilWriter) :
    Handler env h Response original req r
      = (⟨(h _ (cwOn WriteCloser.nilWriter).toSink req (nilStart r e, [])).1.1.header,
          (h _ (cwOn WriteCloser.nilWriter).toSink req (nilStart r e, [])).1.1.calls,
          (h _ (cwOn WriteCloser.nilWriter).toSink req (nilStart r e, [])).1.1.trace
            ++ [Event.serveEnd
                (h _ (cwOn WriteCloser.nilWriter).toSink req (nilStart r e, [])).2]⟩,
         Outcome.panicked) := by
  have hel0 : eligible env req (original.Header r) = true := hel
  simp only [Handler, hel0, hneg, hw, WriteCloser.isNil, closeWriter]
  simp [original, matchHeader, cwOn, nilStart]

theorem Handler_match (env : Env) (h : HandlerFunc) (req : Request) (r : Response)
    (e : String) (c : Codec) (hel : eligible env req r.header = true)
    (hneg : env.negotiate req offers = (e, true))
    (hw : newWriter env e = WriteCloser.writer c) :
    Handler env h Response original req r
      = matchEnd c (h _ (cwOriginal c).toSink req (matchStart r e, [])) := by
  have hel0 : eligible env req (original.Header r) = true := hel
  simp only [Handler, hel0, hneg, hw, closeWriter, writeAll_original, WriteCloser.isNil]
  simp [original, matchHeader, cwOriginal, cwOn, matchEnd, matchStart]

theorem Handler_passthrough_any {S : Type} (env : Env) (h : HandlerFunc) (res : Sink S)
    (req : Request) (s : S) (hel : eligible env req (res.Header s) = false) :
    Handler env h S res req s
      = (res.note (Event.serveEnd (h S res req (res.note (Event.serve false (res.Header s)) s)).2)
            (h S res req (res.note (Event.serve false (res.Header s)) s)).1,
          (h S res req (res.note (Event.serve false (res.Header s)) s)).2) := by
  simp [Handler, hel]

theorem eligible_eq_true (env : Env) (req : Request) (hdr : Header)
    (hm : req.Method ≠ MethodHead) (hce : hdr.Get ContentEncoding = "")
    (hct : env.compressible (req.Header.Get ContentType) = true) :
    eligible env req hdr = true := by
  simp [eligible, hm, hce, hct]

theorem eligible_eq_false (env : Env) (req : Request) (hdr : Header)
    (h : req.Method = MethodHead ∨ hdr.Get ContentEncoding ≠ "" ∨
      env.compressible (req.Header.Get ContentType) = false) :
    eligible env req hdr = false := by
  rcases h with h | h | h <;> simp [eligible, h]

theorem newWriter_of_mem (env : Env) (e : String) (he : e ∈ offers)
    (hfl : env.flateNewWriter DefaultCompression ≠ none) :
    ∃ c, newWriter env e = WriteCloser.writer c := by
  simp only [offers, List.mem_cons, List.mem_singleton, List.not_mem_nil, or_false] at he
  rcases he with he | he
  · exact ⟨env.gzipNewWriter, by simp [newWriter, he]⟩
  · cases hc : env.flateNewWriter DefaultCompression with
    | none => exact absurd hc hfl
    | some c => exact ⟨c, by simp [newWriter, he, hc]⟩

theorem newWriter_ne_nil (env : Env) (e : String)
    (hw : newWriter env e ≠ WriteCloser.nil) : e ≠ "" := by
  intro h
  simp [newWriter, h] at hw

theorem eligible_matchHeader (env : Env) (req : Request) (hdr : Header) (e : String)
    (he : e ≠ "") : eligible env req (matchHeader hdr e) = false := by
  have h : (matchHeader hdr e).Get ContentEncoding = e := by
    simp [Header.Get, matchHeader_encoding]
  simp [eligible, h, he]

theorem run_cwOriginal_writes (c : Codec) (p : Prog) (r : Response) (hist : List Bytes) :
    (p.run (cwOriginal c).toSink (r, hist)).1.2
        = hist ++ p.writes (cwOriginal c).toSink (r, hist) ∧
    (p.run (cwOriginal c).toSink (r, hist)).1.1.trace
        = r.trace ++ (p.writes (cwOriginal c).toSink (r, hist)).map Event.compWrite ∧
    (p.run (cwOriginal c).toSink (r, hist)).1.1.body
          ++ (c.onClose (hist ++ p.writes (cwOriginal c).toSink (r, hist))).flatten
        = r.body ++ (c.emitAll hist (p.writes (cwOriginal c).toSink (r, hist))).flatten := by
  induction p generalizing r hist with
  | ret => simp [Prog.run, Prog.writes, Codec.emitAll]
  | panic => simp [Prog.run, Prog.writes, Codec.emitAll]
  | header k ih => simpa [Prog.run, Prog.writes] using ih _ r hist
  | mutHeader f k ih =>
    obtain ⟨h1, h2, h3⟩ := ih ⟨f r.header, r.calls, r.trace⟩ hist
    exact ⟨h1, h2, h3⟩
  | WriteHeader st k ih =>
    obtain ⟨h1, h2, h3⟩ := ih ⟨r.header.Del ContentLength,
      r.calls ++ [Call.WriteHeader st (r.header.Del ContentLength)], r.trace⟩ hist
    have e : (cwOriginal c).toSink.WriteHeader st (r, hist) = _ :=
      cwOriginal_WriteHeader c st r hist
    refine ⟨?_, ?_, ?_⟩
    · simpa [Prog.run, Prog.writes, e] using h1
    · simpa [Prog.run, Prog.writes, e] using h2
    · simpa [Prog.run, Prog.writes, e, Response.body, Call.body] using h3
  | Write b k ih =>
    obtain ⟨h1, h2, h3⟩ := ih (c.result hist b) ⟨r.header.Del ContentLength,
      r.calls ++ (c.onWrite hist b).map (fun x => Call.Write x (r.header.Del ContentLength)),
      r.trace ++ [Event.compWrite b]⟩ (hist ++ [b])
    have e : (cwOriginal c).toSink.Write b (r, hist) = _ := cwOriginal_Write c b r hist
    refine ⟨?_, ?_, ?_⟩
    · simpa [Prog.run, Prog.writes, e] using h1
    · simpa [Prog.run, Prog.writes, e] using h2
    · simp only [Response.body, body_append_writes] at h3
      simpa [Prog.run, Prog.writes, e, Response.body, Codec.emitAll] using h3

theorem writes_ofOps (c : Codec) (ops : List Op) (r : Response) (hist : List Bytes) :
    (Prog.ofOps ops).writes (cwOriginal c).toSink (r, hist) = ops.filterMap Op.written := by
  induction ops generalizing r hist with
  | nil => simp [Prog.ofOps, Prog.writes]
  | cons op ops ih =>
    cases op with
    | Write b =>
      have e : (cwOriginal c).toSink.Write b (r, hist) = _ := cwOriginal_Write c b r hist
      simp [Prog.ofOps, Prog.writes, e, ih, Op.written]
    | WriteHeader st =>
      simp [Prog.ofOps, Prog.writes, ih, Op.written]
    | mutHeader f =>
      simp [Prog.ofOps, Prog.writes, ih, Op.written]

theorem newWriter_of_named (env : Env) (e : String) (c : Codec)
    (hc : (e = "gzip" ∧ c = env.gzipNewWriter) ∨
      (e = "deflate" ∧ env.flateNewWriter DefaultCompression = some c)) :
    newWriter env e = WriteCloser.writer c := by
  rcases hc with ⟨he, hc⟩ | ⟨he, hc⟩
  · simp [newWriter, he, hc]
  · simp [newWriter, he, hc]

theorem named_of_mem (env : Env) (e : String) (he : e ∈ offers)
    (hfl : env.flateNewWriter DefaultCompression ≠ none) :
    ∃ c, (e = "gzip" ∧ c = env.gzipNewWriter) ∨
      (e = "deflate" ∧ env.flateNewWriter DefaultCompression = some c) := by
  simp only [offers, List.mem_cons, List.mem_singleton, List.not_mem_nil, or_false] at he
  rcases he with he | he
  · exact ⟨env.gzipNewWriter, Or.inl ⟨he, rfl⟩⟩
  · cases hc : env.flateNewWriter DefaultCompression with
    | none => exact absurd hc hfl
    | some c => exact ⟨c, Or.inr ⟨he, rfl⟩⟩

theorem Handler_match_writes (env : Env) (p : Request → Prog) (req : Request) (r : Response)
    (e : String) (c : Codec) (hel : eligible env req r.header = true)
    (hneg : env.negotiate req offers = (e, true))
    (hw : newWriter env e = WriteCloser.writer c) :
    (Handler env (serve p) Response original req r).1.calls
      = ((p req).run (cwOriginal c).toSink (matchStart r e, [])).1.1.calls
        ++ (c.onClose ((p req).writes (cwOriginal c).toSink (matchStart r e, []))).map
            (fun x => Call.Write x
              ((p req).run (cwOriginal c).toSink (matchStart r e, [])).1.1.header) ∧
    ((p req).run (cwOriginal c).toSink (matchStart r e, [])).1.2
      = (p req).writes (cwOriginal c).toSink (matchStart r e, []) ∧
    (Handler env (serve p) Response original req r).1.trace
      = r.trace ++ matchTrace e (matchHeader r.header e)
          ((p req).writes (cwOriginal c).toSink (matchStart r e, []))
          ((p req).run (cwOriginal c).toSink (matchStart r e, [])).2 ∧
    (Handler env (serve p) Response original req r).1.body
      = r.body ++ c.compress ((p req).writes (cwOriginal c).toSink (matchStart r e, [])) ∧
    (Handler env (serve p) Response original req r).2
      = ((p req).run (cwOriginal c).toSink (matchStart r e, [])).2 := by
  obtain ⟨h1, h2, h3⟩ := run_cwOriginal_writes c (p req) (matchStart r e) []
  simp only [List.nil_append] at h1 h3
  have hH := Handler_match env (serve p) req r e c hel hneg hw
  refine ⟨?_, h1, ?_, ?_, ?_⟩
  · rw [hH]
    simp only [matchEnd, serve]
    rw [h1]
  · rw [hH]
    simp only [matchEnd, serve]
    rw [h2]
    simp [matchStart, matchTrace]
  · rw [hH]
    simp only [matchEnd, serve, Response.body, body_append_writes]
    simp only [Response.body] at h3
    rw [h1]
    simpa [Codec.compress, matchStart] using h3
  · rw [hH]
    rfl

theorem run_cwOn_obs (w : WriteCloser) (p : Prog) (r₁ r₂ : Response) (hist : List Bytes)
    (hh : r₁.header = r₂.header) (hc : r₁.calls = r₂.calls) :
    (p.run (cwOn w).toSink (r₁, hist)).1.1.header
        = (p.run (cwOn w).toSink (r₂, hist)).1.1.header ∧
    (p.run (cwOn w).toSink (r₁, hist)).1.1.calls
        = (p.run (cwOn w).toSink (r₂, hist)).1.1.calls ∧
    (p.run (cwOn w).toSink (r₁, hist)).1.2
        = (p.run (cwOn w).toSink (r₂, hist)).1.2 ∧
    (p.run (cwOn w).toSink (r₁, hist)).2
        = (p.run (cwOn w).toSink (r₂, hist)).2 := by
  induction p generalizing r₁ r₂ hist with
  | ret => simp [Prog.run, hh, hc]
  | panic => simp [Prog.run, hh, hc]
  | header k ih =>
    have e : (cwOn w).toSink.Header (r₁, hist) = (cwOn w).toSink.Header (r₂, hist) := hh
    simpa [Prog.run, e] using ih _ r₁ r₂ hist hh hc
  | mutHeader f k ih =>
    exact ih ⟨f r₁.header, r₁.calls, r₁.trace⟩ ⟨f r₂.header, r₂.calls, r₂.trace⟩ hist
      (by simp [hh]) hc
  | WriteHeader st k ih =>
    have e₁ : (cwOn w).toSink.WriteHeader st (r₁, hist) = _ := cwOn_WriteHeader w st r₁ hist
    have e₂ : (cwOn w).toSink.WriteHeader st (r₂, hist) = _ := cwOn_WriteHeader w st r₂ hist
    simp only [Prog.run, e₁, e₂]
    exact ih _ _ hist (by simp [hh]) (by simp [hh, hc])
  | Write b k ih =>
    cases w with
    | nil =>
      have e₁ : (cwOn WriteCloser.nil).toSink.Write b (r₁, hist) = _ := cwOn_Write_nil b r₁ hist
      have e₂ : (cwOn WriteCloser.nil).toSink.Write b (r₂, hist) = _ := cwOn_Write_nil b r₂ hist
      simp only [Prog.run, e₁, e₂]
      simp [cwOn, original, hh, hc]
    | nilWriter =>
      have e₁ : (cwOn WriteCloser.nilWriter).toSink.Write b (r₁, hist) = _ :=
        cwOn_Write_nilWriter b r₁ hist
      have e₂ : (cwOn WriteCloser.nilWriter).toSink.Write b (r₂, hist) = _ :=
        cwOn_Write_nilWriter b r₂ hist
      simp only [Prog.run, e₁, e₂]
      simp [cwOn, original, hh, hc]
    | writer c =>
      have e₁ : (cwOn (WriteCloser.writer c)).toSink.Write b (r₁, hist) = _ :=
        cwOriginal_Write c b r₁ hist
      have e₂ : (cwOn (WriteCloser.writer c)).toSink.Write b (r₂, hist) = _ :=
        cwOriginal_Write c b r₂ hist
      simp only [Prog.run, e₁, e₂]
      exact ih _ _ _ (hist ++ [b]) (by simp [hh]) (by simp [hh, hc])

theorem run_nilWriter_trace (p : Prog) (r : Response) (hist : List Bytes) :
    (p.run (cwOn WriteCloser.nilWriter).toSink (r, hist)).1.1.trace = r.trace := by
  induction p generalizing r hist with
  | ret => simp [Prog.run]
  | panic => simp [Prog.run]
  | header k ih => simpa [Prog.run] using ih _ r hist
  | mutHeader f k ih => exact ih ⟨f r.header, r.calls, r.trace⟩ hist
  | WriteHeader st k ih =>
    have e : (cwOn WriteCloser.nilWriter).toSink.WriteHeader st (r, hist) = _ :=
      cwOn_WriteHeader _ st r hist
    simp only [Prog.run, e]
    exact ih _ hist
  | Write b k ih =>
    have e : (cwOn WriteCloser.nilWriter).toSink.Write b (r, hist) = _ :=
      cwOn_Write_nilWriter b r hist
    simp only [Prog.run, e]
    rfl

theorem since_append (r2 r : Response) (t : List Event) (h : r2.trace = r.trace ++ t) :
    r2.since r = t := by
  simp [Response.since, h]

theorem run_cwOriginal_no_length (c : Codec) (p : Prog) (r : Response) (hist : List Bytes) :
    ∃ new : List Call,
      (p.run (cwOriginal c).toSink (r, hist)).1.1.calls = r.calls ++ new ∧
      ∀ x ∈ new, x.hdr.vals ContentLength = [] := by
  induction p generalizing r hist with
  | ret => exact ⟨[], by simp [Prog.run]⟩
  | panic => exact ⟨[], by simp [Prog.run]⟩
  | header k ih => simpa [Prog.run] using ih _ r hist
  | mutHeader f k ih => exact ih ⟨f r.header, r.calls, r.trace⟩ hist
  | WriteHeader st k ih =>
    obtain ⟨new, h1, h2⟩ := ih ⟨r.header.Del ContentLength,
      r.calls ++ [Call.WriteHeader st (r.header.Del ContentLength)], r.trace⟩ hist
    have e : (cwOriginal c).toSink.WriteHeader st (r, hist) = _ :=
      cwOriginal_WriteHeader c st r hist
    refine ⟨Call.WriteHeader st (r.header.Del ContentLength) :: new, ?_, ?_⟩
    · simpa [Prog.run, e] using h1
    · intro x hx
      rcases List.mem_cons.mp hx with hx | hx
      · rw [hx]
        exact Header.vals_Del_same _ _
      · exact h2 x hx
  | Write b k ih =>
    obtain ⟨new, h1, h2⟩ := ih (c.result hist b) ⟨r.header.Del ContentLength,
      r.calls ++ (c.onWrite hist b).map (fun x => Call.Write x (r.header.Del ContentLength)),
      r.trace ++ [Event.compWrite b]⟩ (hist ++ [b])
    have e : (cwOriginal c).toSink.Write b (r, hist) = _ := cwOriginal_Write c b r hist
    refine ⟨(c.onWrite hist b).map (fun x => Call.Write x (r.header.Del ContentLength)) ++ new,
      ?_, ?_⟩
    · simpa [Prog.run, e] using h1
    · intro x hx
      rcases List.mem_append.mp hx with hx | hx
      · obtain ⟨y, -, hy⟩ := List.mem_map.mp hx
        rw [← hy]
        exact Header.vals_Del_same _ _
      · exact h2 x hx

theorem Handler_failing_flate :
    (Handler failingEnv (serve helloHandlerFunc) Response original demoRequest
        Response.fresh).2 = Outcome.panicked ∧
    (Handler failingEnv (serve helloHandlerFunc) Response original demoRequest
        Response.fresh).1.statuses = [200] ∧
    (Handler failingEnv (serve helloHandlerFunc) Response original demoRequest
        Response.fresh).1.body = [] ∧
    (Handler failingEnv (serve helloHandlerFunc) Response original demoRequest
        Response.fresh).1.header.vals ContentEncoding = ["deflate"] := by
  decide

theorem countP_compWrite (f : Event → Bool) (hf : ∀ b, f (Event.compWrite b) = false)
    (ws : List Bytes) : (ws.map Event.compWrite).countP f = 0 := by
  induction ws with
  | nil => rfl
  | cons b bs ih => simp [List.countP_cons, hf, ih]

theorem matchTrace_counts (e : String) (hdr : Header) (ws : List Bytes) (o : Outcome) :
    (matchTrace e hdr ws o).countP Event.isCreate = 1 ∧
    (matchTrace e hdr ws o).countP Event.isClose = 1 ∧
    (matchTrace e hdr ws o).getLast? = some Event.close := by
  have h1 := countP_compWrite Event.isCreate (fun _ => rfl) ws
  have h2 := countP_compWrite Event.isClose (fun _ => rfl) ws
  refine ⟨?_, ?_, ?_⟩
  · simp [matchTrace, List.countP_append, List.countP_cons, Event.isCreate, h1]
  · simp [matchTrace, List.countP_append, List.countP_cons, Event.isClose, h2]
  · have h : matchTrace e hdr ws o
        = ([Event.negotiate, Event.create e, Event.serve true hdr] ++ ws.map Event.compWrite
            ++ [Event.serveEnd o]) ++ [Event.close] := by
      simp [matchTrace]
    rw [h, List.getLast?_append]
    rfl

theorem Handler_trace_cases (env : Env) (p : Request → Prog) (req : Request) (r : Response) :
    ∃ t, (Handler env (serve p) Response original req r).1.trace = r.trace ++ t ∧
      ((∃ e c ws o, eligible env req r.header = true ∧
          env.negotiate req offers = (e, true) ∧ newWriter env e = WriteCloser.writer c ∧
          t = matchTrace e (matchHeader r.header e) ws o ∧
          (Handler env (serve p) Response original req r).2 = o) ∨
       (t.countP Event.isCreate = 0 ∧ t.countP Event.isClose = 0 ∧
          (eligible env req r.header = false ∨ (env.negotiate req offers).2 = false ∨
            ∀ c, newWriter env (env.negotiate req offers).1 ≠ WriteCloser.writer c))) := by
  cases hel : eligible env req r.header with
  | false =>
    refine ⟨[Event.serve false r.header, Event.serveEnd ((p req).run original r).2], ?_,
      Or.inr ⟨?_, ?_, Or.inl rfl⟩⟩
    · rw [Handler_passthrough env p req r hel]
    · simp [List.countP_cons, Event.isCreate]
    · simp [List.countP_cons, Event.isClose]
  | true =>
    rcases hneg : env.negotiate req offers with ⟨e, m⟩
    cases m with
    | false =>
      refine ⟨[Event.negotiate], ?_, Or.inr ⟨?_, ?_, Or.inr (Or.inl rfl)⟩⟩
      · rw [Handler_notAcceptable env _ req r e hel hneg]
      · simp [List.countP_cons, Event.isCreate]
      · simp [List.countP_cons, Event.isClose]
    | true =>
      cases hw : newWriter env e with
      | nil =>
        refine ⟨[Event.negotiate], ?_, Or.inr ⟨?_, ?_, Or.inr (Or.inr ?_)⟩⟩
        · rw [Handler_nilWriter env _ req r e hel hneg hw]
        · simp [List.countP_cons, Event.isCreate]
        · simp [List.countP_cons, Event.isClose]
        · intro c hc
          cases hc
      | nilWriter =>
        refine ⟨[Event.negotiate, Event.serve true (matchHeader r.header e),
          Event.serveEnd ((p req).run (cwOn WriteCloser.nilWriter).toSink
            (nilStart r e, [])).2], ?_, Or.inr ⟨?_, ?_, Or.inr (Or.inr ?_)⟩⟩
        · rw [Handler_nilFlate env _ req r e hel hneg hw]
          simp only [serve]
          rw [run_nilWriter_trace]
          simp [nilStart]
        · simp [List.countP_cons, Event.isCreate]
        · simp [List.countP_cons, Event.isClose]
        · intro c hc
          cases hc
      | writer c =>
        obtain ⟨-, -, h3, -, h5⟩ := Handler_match_writes env p req r e c hel hneg hw
        exact ⟨_, h3, Or.inl ⟨e, c, _, _, rfl, rfl, hw, rfl, h5⟩⟩

/-! ## The claims -/

/-- C1. For a request that is not HEAD, whose response carries no
Content-Encoding on entry, whose inspected content type is compressible and
for which negotiation succeeds with an offer `e` (the deflate constructor not
failing at the default level): with `c` the compressor of `e`, that is
`gzip.NewWriter` for gzip and `flate.NewWriter` at the default level for
deflate, the body bytes that reach the original sink are the output of a
fresh `c` written, in order, the arguments of the `Write` calls the
downstream handler makes on the sink it is given, and then closed. For a
handler that makes the steps `ops` and returns, the writes are those among
`ops`; for no write at all the body is the output on the empty input. -/
theorem C1_body_is_compressed (env : Env) (p : Request → Prog) (req : Request)
    (r : Response) (e : String)
    (hm : req.Method ≠ MethodHead) (hce : r.header.Get ContentEncoding = "")
    (hct : env.compressible (req.Header.Get ContentType) = true)
    (hneg : env.negotiate req offers = (e, true)) (he : e ∈ offers)
    (hfl : env.flateNewWriter DefaultCompression ≠ none) :
    ∃ c, ((e = "gzip" ∧ c = env.gzipNewWriter) ∨
          (e = "deflate" ∧ env.flateNewWriter DefaultCompression = some c)) ∧
      (Handler env (serve p) Response original req r).1.body
        = r.body ++ c.compress
            ((p req).writes (cwOriginal c).toSink (matchStart r e, [])) ∧
      (∀ ops, p req = Prog.ofOps ops →
        (Handler env (serve p) Response original req r).1.body
          = r.body ++ c.compress (ops.filterMap Op.written)) ∧
      (p req = Prog.ret →
        (Handler env (serve p) Response original req r).1.body
          = r.body ++ (c.onClose []).flatten) := by
  obtain ⟨c, hc⟩ := named_of_mem env e he hfl
  have hw := newWriter_of_named env e c hc
  have hel := eligible_eq_true env req r.header hm hce hct
  obtain ⟨-, -, -, h4, -⟩ := Handler_match_writes env p req r e c hel hneg hw
  refine ⟨c, hc, h4, ?_, ?_⟩
  · intro ops hops
    rw [h4, hops, writes_ofOps]
  · intro hret
    rw [h4, hret]
    simp [Prog.writes, Codec.compress, Codec.emitAll]

/-- C2. For a request that passes the three pre-checks and for which the
Negotiator, queried with the offers gzip, deflate in that order, returns an
offer `e` as match: with `c` the compressor of `e`, what Handler does on the
original sink is what the downstream handler does on the wrapper bound to
`c` over the original sink, run once from the state in which nothing has
been written and the header map is the one on entry with Content-Encoding
set to `e` and Vary set to Accept-Encoding, followed by the close of `c`.
This holds for every downstream handler. One invocation is logged. For a
Negotiator that returns the first acceptable offer and a request for which
gzip is acceptable, `e` is gzip. -/
theorem C2_headers_at_invocation (env : Env) (p : Request → Prog) (req : Request)
    (r : Response) (e : String)
    (hm : req.Method ≠ MethodHead) (hce : r.header.Get ContentEncoding = "")
    (hct : env.compressible (req.Header.Get ContentType) = true)
    (hneg : env.negotiate req offers = (e, true)) (he : e ∈ offers)
    (hfl : env.flateNewWriter DefaultCompression ≠ none) :
    (∃ c, ((e = "gzip" ∧ c = env.gzipNewWriter) ∨
          (e = "deflate" ∧ env.flateNewWriter DefaultCompression = some c)) ∧
      (∀ h : HandlerFunc, Handler env h Response original req r
        = matchEnd c (h _ (cwOriginal c).toSink req (matchStart r e, []))) ∧
      (cwOriginal c).w = WriteCloser.writer c ∧ (cwOriginal c).rw = original ∧
      (∀ out, matchEnd c out
        = (⟨out.1.1.header,
            out.1.1.calls ++ (c.onClose out.1.2).map (fun x => Call.Write x out.1.1.header),
            out.1.1.trace ++ [Event.serveEnd out.2, Event.close]⟩, out.2))) ∧
    (matchStart r e).header = (r.header.Set ContentEncoding e).Set Vary AcceptEncoding ∧
    (matchStart r e).calls = r.calls ∧
    (matchStart r e).header.vals ContentEncoding = [e] ∧
    (matchStart r e).header.Get ContentEncoding = e ∧
    (matchStart r e).header.vals Vary = [AcceptEncoding] ∧
    (matchStart r e).header.Get Vary = AcceptEncoding ∧
    ((Handler env (serve p) Response original req r).1.since r).countP Event.isServe = 1 ∧
    (∀ acc : Request → String → Bool, env.negotiate = firstOffer acc →
      acc req "gzip" = true → e = "gzip") := by
  obtain ⟨c, hc⟩ := named_of_mem env e he hfl
  have hw := newWriter_of_named env e c hc
  have hel := eligible_eq_true env req r.header hm hce hct
  obtain ⟨-, -, h3, -, -⟩ := Handler_match_writes env p req r e c hel hneg hw
  have hs := since_append _ r _ h3
  refine ⟨⟨c, hc, fun h => Handler_match env h req r e c hel hneg hw, rfl, rfl,
    fun _ => rfl⟩, rfl, rfl, matchHeader_encoding _ _, ?_, matchHeader_vary _ _, ?_, ?_, ?_⟩
  · simp [Header.Get, matchStart, matchHeader_encoding]
  · simp [Header.Get, matchStart, matchHeader_vary]
  · rw [hs]
    have hz := countP_compWrite Event.isServe (fun _ => rfl)
      ((p req).writes (cwOriginal c).toSink (matchStart r e, []))
    simp [matchTrace, List.countP_append, List.countP_cons, Event.isServe, hz]
  · intro acc hacc hg
    rw [hacc] at hneg
    simp [firstOffer, offers, List.find?, hg] at hneg
    exact hneg.symm

/-- C3. For a request that passes the three pre-checks and for which
negotiation reports no match, whatever the downstream handler is: Handler
writes status 406 and then the bytes of `supported encodings: gzip, deflate`
on the original sink, leaves the header map as it was, consults the
Negotiator, and logs neither an invocation of the downstream handler nor the
construction of a compressor; it returns. -/
theorem C3_not_acceptable (env : Env) (h : HandlerFunc) (req : Request) (r : Response)
    (e : String)
    (hm : req.Method ≠ MethodHead) (hce : r.header.Get ContentEncoding = "")
    (hct : env.compressible (req.Header.Get ContentType) = true)
    (hneg : env.negotiate req offers = (e, false)) :
    Handler env h Response original req r
      = (⟨r.header,
          r.calls ++ [Call.WriteHeader 406 r.header, Call.Write notAcceptableBody r.header],
          r.trace ++ [Event.negotiate]⟩, Outcome.returned) ∧
    (Handler env h Response original req r).1.statuses = r.statuses ++ [406] ∧
    (Handler env h Response original req r).1.body = r.body ++ notAcceptableBody ∧
    notAcceptableBody
      = [115, 117, 112, 112, 111, 114, 116, 101, 100, 32, 101, 110, 99, 111, 100, 105, 110,
         103, 115, 58, 32, 103, 122, 105, 112, 44, 32, 100, 101, 102, 108, 97, 116, 101] := by
  have hel := eligible_eq_true env req r.header hm hce hct
  have hH := Handler_notAcceptable env h req r e hel hneg
  refine ⟨hH, ?_, ?_, by decide⟩
  · rw [hH]
    simp [Response.statuses, Call.status, StatusNotAcceptable, List.filterMap_append]
  · rw [hH]
    simp [Response.body, Call.body]

/-- C4. For a request for which a pre-check fails (the method is HEAD, or
the response already holds a non-empty Content-Encoding, or the inspected
content type is not compressible): the header map, the calls on the original
sink and the outcome are those of running the downstream handler directly on
the original sink, and Handler logs one invocation of the downstream handler
with the original sink and nothing else (no negotiation, no compressor).
The right-hand side does not mention the Negotiator. -/
theorem C4_passthrough (env : Env) (p : Request → Prog) (req : Request) (r : Response)
    (h : req.Method = MethodHead ∨ r.header.Get ContentEncoding ≠ "" ∨
      env.compressible (req.Header.Get ContentType) = false) :
    Handler env (serve p) Response original req r
      = (⟨((p req).run original r).1.header, ((p req).run original r).1.calls,
          r.trace ++ [Event.serve false r.header,
            Event.serveEnd ((p req).run original r).2]⟩,
         ((p req).run original r).2) :=
  Handler_passthrough env p req r (eligible_eq_false env req r.header h)

/-- C5, as the code has it. The third pre-check applies the classifier to
the Content-Type of the request. For every request whose own Content-Type is
classified non-compressible, Handler passes through (the header map, the
calls on the sink and the outcome are those of the downstream handler run
directly). Whether compression is attempted does not depend on the
Content-Type held by the response header map: for a request that is not
HEAD, with no Content-Encoding on the response and a compressible type of
its own, whatever value `v` the response declares as Content-Type, Handler
compresses when negotiation matches and answers 406 when it does not; and
the pre-check has the same value on every header map before and after its
Content-Type is set or removed. -/
theorem C5_request_content_type (env : Env) (p : Request → Prog) (req : Request)
    (r : Response) :
    (env.compressible (req.Header.Get ContentType) = false →
      Handler env (serve p) Response original req r
        = (⟨((p req).run original r).1.header, ((p req).run original r).1.calls,
            r.trace ++ [Event.serve false r.header,
              Event.serveEnd ((p req).run original r).2]⟩,
           ((p req).run original r).2)) ∧
    (∀ (v e : String) (c : Codec) (h : HandlerFunc),
      req.Method ≠ MethodHead → r.header.Get ContentEncoding = "" →
      env.compressible (req.Header.Get ContentType) = true →
      env.negotiate req offers = (e, true) →
      ((e = "gzip" ∧ c = env.gzipNewWriter) ∨
        (e = "deflate" ∧ env.flateNewWriter DefaultCompression = some c)) →
      Handler env h Response original req ⟨r.header.Set ContentType v, r.calls, r.trace⟩
        = matchEnd c (h _ (cwOriginal c).toSink req
            (matchStart ⟨r.header.Set ContentType v, r.calls, r.trace⟩ e, []))) ∧
    (∀ (v e : String) (h : HandlerFunc),
      req.Method ≠ MethodHead → r.header.Get ContentEncoding = "" →
      env.compressible (req.Header.Get ContentType) = true →
      env.negotiate req offers = (e, false) →
      Handler env h Response original req ⟨r.header.Set ContentType v, r.calls, r.trace⟩
        = (⟨r.header.Set ContentType v,
            r.calls ++ [Call.WriteHeader 406 (r.header.Set ContentType v),
              Call.Write notAcceptableBody (r.header.Set ContentType v)],
            r.trace ++ [Event.negotiate]⟩, Outcome.returned)) ∧
    (∀ (hdr : Header) (v : String),
      eligible env req (hdr.Set ContentType v) = eligible env req hdr) ∧
    (∀ hdr : Header, eligible env req (hdr.Del ContentType) = eligible env req hdr) := by
  have hget : ∀ v, (r.header.Set ContentType v).Get ContentEncoding
      = r.header.Get ContentEncoding := by
    intro v
    simp [Header.Get, Header.Set, ContentType, ContentEncoding]
  refine ⟨?_, ?_, ?_, ?_, ?_⟩
  · intro h
    exact Handler_passthrough env p req r
      (eligible_eq_false env req r.header (Or.inr (Or.inr h)))
  · intro v e c h hm hce hct hneg hc
    have hel : eligible env req
        (⟨r.header.Set ContentType v, r.calls, r.trace⟩ : Response).header = true :=
      eligible_eq_true env req _ hm ((hget v).trans hce) hct
    exact Handler_match env h req _ e c hel hneg (newWriter_of_named env e c hc)
  · intro v e h hm hce hct hneg
    have hel : eligible env req
        (⟨r.header.Set ContentType v, r.calls, r.trace⟩ : Response).header = true :=
      eligible_eq_true env req _ hm ((hget v).trans hce) hct
    exact Handler_notAcceptable env h req _ e hel hneg
  · intro hdr v
    simp [eligible, Header.Get, Header.Set, ContentType, ContentEncoding]
  · intro hdr
    simp [eligible, Header.Get, Header.Del, ContentType, ContentEncoding]

/-- C5 fails as stated: with a response whose Content-Type is an image type
(not compressible) and a request whose Content-Type is text/plain, Handler
compresses; with the same response and a request whose Content-Type is
image/png it does not. -/
theorem C5_counterexample :
    demoEnv.compressible (Response.image.header.Get ContentType) = false ∧
    (Handler demoEnv (serve helloHandlerFunc) Response original
        (mkRequest "GET" ["gzip"] "text/plain") Response.image).1.header.vals ContentEncoding
      = ["gzip"] ∧
    (Handler demoEnv (serve helloHandlerFunc) Response original
        (mkRequest "GET" ["gzip"] "text/plain") Response.image).1.header.vals Vary
      = ["Accept-Encoding"] ∧
    (Handler demoEnv (serve helloHandlerFunc) Response original
        (mkRequest "GET" ["gzip"] "text/plain") Response.image).1.body
      = [31, 139, 72, 101, 108, 108, 111, 0] ∧
    (Handler demoEnv (serve helloHandlerFunc) Response original
        (mkRequest "GET" ["gzip"] "image/png") Response.image).1.header.vals ContentEncoding
      = [] ∧
    (Handler demoEnv (serve helloHandlerFunc) Response original
        (mkRequest "GET" ["gzip"] "image/png") Response.image).1.body
      = [72, 101, 108, 108, 111] := by
  decide

/-- C6. On the original sink with header map `H`: the wrapper's
`WriteHeader(s)` removes Content-Length from `H` and then forwards `s` to the
sink; the wrapper's `Write(b)` removes Content-Length from `H` and then
forwards `b` to the compressor, whose chunks reach the sink, and returns the
compressor's count and error; removing Content-Length leaves every other
header as it was; and for every underlying sink `Header()` is the header map
of that sink. -/
theorem C6_wrapper_operations (c : Codec) (r : Response) (hist : List Bytes)
    (status : Int) (b : Bytes) :
    (cwOriginal c).toSink.WriteHeader status (r, hist)
      = (⟨r.header.Del ContentLength,
          r.calls ++ [Call.WriteHeader status (r.header.Del ContentLength)],
          r.trace⟩, hist) ∧
    (cwOriginal c).toSink.Write b (r, hist)
      = ((⟨r.header.Del ContentLength,
           r.calls ++ (c.onWrite hist b).map (fun x => Call.Write x (r.header.Del ContentLength)),
           r.trace ++ [Event.compWrite b]⟩, hist ++ [b]),
         some (c.result hist b)) ∧
    (r.header.Del ContentLength).vals ContentLength = [] ∧
    (∀ k, k ≠ ContentLength → (r.header.Del ContentLength).vals k = r.header.vals k) ∧
    (∀ (S : Type) (rw : Sink S) (w : WriteCloser) (st : S × List Bytes),
      (compressWriter.mk rw w).toSink.Header st = rw.Header st.1 ∧
      (compressWriter.mk rw w).toSink.WriteHeader status st
        = (rw.WriteHeader status (rw.mutHeader (fun h => h.Del ContentLength) st.1), st.2)) :=
  ⟨cwOriginal_WriteHeader c status r hist, cwOriginal_Write c b r hist,
   Header.vals_Del_same _ _, fun k hk => Header.vals_Del_of_ne _ _ k hk,
   fun _ _ _ _ => ⟨rfl, rfl⟩⟩

/-- C7. For every downstream handler (one that panics included). On the
match path, with `c` the compressor of the negotiated offer: what Handler
does on the original sink is the run of the handler on the wrapper bound to
`c`, followed by the close of `c`; the calls on the sink are the calls made
during that run followed, last, by the chunks `c` emits when it is closed
after exactly the writes the handler made; the outcome is the handler's;
the events logged are negotiation, one construction, the invocation, the
handler's writes, the end of the invocation, one close. On the passthrough
path the calls are those of the handler run directly, on the 406 path they
are the status and the literal body, and on neither a construction or a
close is logged. For every request the trace is of the first form or holds
no construction and no close. A trace of the first form holds exactly one
construction and exactly one close, and the close is its last event. -/
theorem C7_close_exactly_once (env : Env) (p : Request → Prog) (req : Request)
    (r : Response) :
    (Handler env (serve p) Response original req r).1.trace
      = r.trace ++ (Handler env (serve p) Response original req r).1.since r ∧
    (∀ (e : String) (c : Codec), req.Method ≠ MethodHead →
      r.header.Get ContentEncoding = "" →
      env.compressible (req.Header.Get ContentType) = true →
      env.negotiate req offers = (e, true) →
      ((e = "gzip" ∧ c = env.gzipNewWriter) ∨
        (e = "deflate" ∧ env.flateNewWriter DefaultCompression = some c)) →
      Handler env (serve p) Response original req r
        = matchEnd c ((p req).run (cwOriginal c).toSink (matchStart r e, [])) ∧
      (Handler env (serve p) Response original req r).1.calls
        = ((p req).run (cwOriginal c).toSink (matchStart r e, [])).1.1.calls
          ++ (c.onClose ((p req).writes (cwOriginal c).toSink (matchStart r e, []))).map
              (fun x => Call.Write x
                ((p req).run (cwOriginal c).toSink (matchStart r e, [])).1.1.header) ∧
      ((p req).run (cwOriginal c).toSink (matchStart r e, [])).1.2
        = (p req).writes (cwOriginal c).toSink (matchStart r e, []) ∧
      (Handler env (serve p) Response original req r).1.since r
        = matchTrace e (matchHeader r.header e)
            ((p req).writes (cwOriginal c).toSink (matchStart r e, []))
            ((p req).run (cwOriginal c).toSink (matchStart r e, [])).2 ∧
      (Handler env (serve p) Response original req r).2
        = ((p req).run (cwOriginal c).toSink (matchStart r e, [])).2) ∧
    ((req.Method = MethodHead ∨ r.header.Get ContentEncoding ≠ "" ∨
        env.compressible (req.Header.Get ContentType) = false) →
      (Handler env (serve p) Response original req r).1.calls
        = ((p req).run original r).1.calls ∧
      ((Handler env (serve p) Response original req r).1.since r).countP Event.isCreate = 0 ∧
      ((Handler env (serve p) Response original req r).1.since r).countP Event.isClose = 0) ∧
    (∀ e : String, req.Method ≠ MethodHead → r.header.Get ContentEncoding = "" →
      env.compressible (req.Header.Get ContentType) = true →
      env.negotiate req offers = (e, false) →
      (Handler env (serve p) Response original req r).1.calls
        = r.calls ++ [Call.WriteHeader 406 r.header, Call.Write notAcceptableBody r.header]) ∧
    ((env.negotiate req offers).2 = false →
      ((Handler env (serve p) Response original req r).1.since r).countP Event.isCreate = 0 ∧
      ((Handler env (serve p) Response original req r).1.since r).countP Event.isClose = 0) ∧
    ((∃ e hdr ws o, (Handler env (serve p) Response original req r).1.since r
          = matchTrace e hdr ws o) ∨
      (((Handler env (serve p) Response original req r).1.since r).countP Event.isCreate = 0 ∧
       ((Handler env (serve p) Response original req r).1.since r).countP Event.isClose = 0)) ∧
    (∀ e hdr ws o, (matchTrace e hdr ws o).countP Event.isCreate = 1 ∧
      (matchTrace e hdr ws o).countP Event.isClose = 1 ∧
      (matchTrace e hdr ws o).getLast? = some Event.close) := by
  obtain ⟨t, ht, hcases⟩ := Handler_trace_cases env p req r
  have hs := since_append _ r _ ht
  refine ⟨by rw [hs]; exact ht, ?_, ?_, ?_, ?_, ?_, matchTrace_counts⟩
  · intro e c hm hce hct hneg hc
    have hw := newWriter_of_named env e c hc
    have hel := eligible_eq_true env req r.header hm hce hct
    obtain ⟨h1, h2, h3, -, h5⟩ := Handler_match_writes env p req r e c hel hneg hw
    exact ⟨Handler_match env (serve p) req r e c hel hneg hw, h1, h2,
      since_append _ r _ h3, h5⟩
  · intro h
    have hel := eligible_eq_false env req r.header h
    refine ⟨by rw [Handler_passthrough env p req r hel], ?_⟩
    rw [hs]
    rcases hcases with ⟨e, c, ws, o, hel0, -⟩ | ⟨h1, h2, -⟩
    · rw [hel] at hel0
      cases hel0
    · exact ⟨h1, h2⟩
  · intro e hm hce hct hneg
    have hel := eligible_eq_true env req r.header hm hce hct
    rw [Handler_notAcceptable env _ req r e hel hneg]
    rfl
  · intro h
    rw [hs]
    rcases hcases with ⟨e, c, ws, o, -, hneg, -⟩ | ⟨h1, h2, -⟩
    · rw [hneg] at h
      cases h
    · exact ⟨h1, h2⟩
  · rw [hs]
    rcases hcases with ⟨e, c, ws, o, -, -, -, h4, -⟩ | ⟨h1, h2, -⟩
    · exact Or.inl ⟨e, _, ws, o, h4⟩
    · exact Or.inr ⟨h1, h2⟩

/-- C8 at two inputs. A handler that sets Content-Length and writes nothing:
both chunks the toy gzip emits at close reach the sink under a header map
that still holds Content-Length. A handler that sets Content-Length after
its only write: the chunk emitted at close reaches the sink under
Content-Length. Each pair is the bytes of a write on the original sink and
the Content-Length values at that moment. -/
theorem C8_close_under_content_length :
    (Handler demoEnv (serve emptyWithLength) Response original
        (mkRequest "GET" ["gzip"] "text/plain") Response.fresh).1.calls.map
        (fun c => (c.body, c.hdr.vals ContentLength))
      = [([31, 139], ["0"]), ([0], ["0"])] ∧
    (Handler demoEnv (serve lengthAfterWrite) Response original
        (mkRequest "GET" ["gzip"] "text/plain") Response.fresh).1.calls.map
        (fun c => (c.body, c.hdr.vals ContentLength))
      = [([31, 139], []), ([72, 101, 108, 108, 111], []), ([0], ["5"])] := by
  decide

/-- C9, as the code has it. For every request that passes the pre-checks and
on which the Negotiator returns one of the offers, given that the deflate
constructor does not fail at the default level: the compressor bound to the
wrapper is not nil, and Handler runs the downstream handler on that wrapper
and closes that compressor. -/
theorem C9_writer_not_nil (env : Env) (p : Request → Prog) (req : Request) (r : Response)
    (e : String)
    (hm : req.Method ≠ MethodHead) (hce : r.header.Get ContentEncoding = "")
    (hct : env.compressible (req.Header.Get ContentType) = true)
    (hneg : env.negotiate req offers = (e, true)) (he : e ∈ offers)
    (hfl : env.flateNewWriter DefaultCompression ≠ none) :
    ∃ c, newWriter env e = WriteCloser.writer c ∧
      (cwOriginal c).w = WriteCloser.writer c ∧
      Handler env (serve p) Response original req r
        = matchEnd c ((p req).run (cwOriginal c).toSink (matchStart r e, [])) := by
  obtain ⟨c, hw⟩ := newWriter_of_mem env e he hfl
  have hel := eligible_eq_true env req r.header hm hce hct
  exact ⟨c, hw, rfl, Handler_match env _ req r e c hel hneg hw⟩

/-- C9 fails as stated: the deflate constructor of the standard library does
not fail at the default level, and with a constructor that does not fail at
that level there is no request on which the Negotiator returns an offer and
the compressor bound to the wrapper is nil. -/
theorem C9_counterexample :
    (∀ c, goFlateNewWriter c DefaultCompression = some c) ∧
    ¬ ∃ (env : Env) (req : Request) (e : String),
        env.flateNewWriter DefaultCompression ≠ none ∧
        env.negotiate req offers = (e, true) ∧ e ∈ offers ∧
        (newWriter env e = WriteCloser.nilWriter ∨ newWriter env e = WriteCloser.nil) := by
  refine ⟨fun c => by simp [goFlateNewWriter, DefaultCompression], ?_⟩
  rintro ⟨env, req, e, hfl, -, he, hw⟩
  obtain ⟨c, hc⟩ := newWriter_of_mem env e he hfl
  rw [hc] at hw
  rcases hw with hw | hw <;> cases hw

/-- C10. Applying the layer twice is the same as applying it once: for every
downstream handler and every request, on the original sink, the final header
map, the calls received (statuses and body bytes, each with the header map
at that moment) and the outcome of `Handler (Handler h)` are those of
`Handler h`. -/
theorem C10_idempotent (env : Env) (p : Request → Prog) (req : Request) (r : Response) :
    (Handler env (Handler env (serve p)) Response original req r).1.header
      = (Handler env (serve p) Response original req r).1.header ∧
    (Handler env (Handler env (serve p)) Response original req r).1.calls
      = (Handler env (serve p) Response original req r).1.calls ∧
    (Handler env (Handler env (serve p)) Response original req r).2
      = (Handler env (serve p) Response original req r).2 := by
  cases hel : eligible env req r.header with
  | false =>
    have hel0 : eligible env req (original.Header r) = false := hel
    have hel2 : eligible env req
        (⟨r.header, r.calls, r.trace ++ [Event.serve false r.header]⟩ : Response).header
          = false := hel
    have ht := run_original_trace (p req) r (r.trace ++ [Event.serve false r.header])
    rw [Handler_passthrough_any env _ original req r hel0, Handler_passthrough env p req r hel]
    have hn : original.note (Event.serve false (original.Header r)) r
        = ⟨r.header, r.calls, r.trace ++ [Event.serve false r.header]⟩ := rfl
    rw [hn, Handler_passthrough env p req _ hel2]
    simp only [ht]
    simp [original]
  | true =>
    rcases hneg : env.negotiate req offers with ⟨e, m⟩
    cases m with
    | false =>
      rw [Handler_notAcceptable env _ req r e hel hneg,
        Handler_notAcceptable env _ req r e hel hneg]
      exact ⟨rfl, rfl, rfl⟩
    | true =>
      cases hw : newWriter env e with
      | nil =>
        rw [Handler_nilWriter env _ req r e hel hneg hw,
          Handler_nilWriter env _ req r e hel hneg hw]
        exact ⟨rfl, rfl, rfl⟩
      | nilWriter =>
        have hne : newWriter env e ≠ WriteCloser.nil := by
          rw [hw]
          intro hc
          cases hc
        have hin : eligible env req
            ((cwOn WriteCloser.nilWriter).toSink.Header (nilStart r e, [])) = false :=
          eligible_matchHeader env req r.header e (newWriter_ne_nil env e hne)
        rw [Handler_nilFlate env _ req r e hel hneg hw, Handler_nilFlate env _ req r e hel hneg hw,
          Handler_passthrough_any env _ (cwOn WriteCloser.nilWriter).toSink req _ hin]
        obtain ⟨o1, o2, -, -⟩ := run_cwOn_obs WriteCloser.nilWriter (p req)
          ((cwOn WriteCloser.nilWriter).toSink.note
            (Event.serve false ((cwOn WriteCloser.nilWriter).toSink.Header (nilStart r e, [])))
            (nilStart r e, [])).1 (nilStart r e) [] rfl rfl
        have hst : (cwOn WriteCloser.nilWriter).toSink.note
            (Event.serve false ((cwOn WriteCloser.nilWriter).toSink.Header (nilStart r e, [])))
            (nilStart r e, [])
            = (((cwOn WriteCloser.nilWriter).toSink.note
                (Event.serve false
                  ((cwOn WriteCloser.nilWriter).toSink.Header (nilStart r e, [])))
                (nilStart r e, [])).1, []) := rfl
        rw [hst]
        simp only [serve, compressWriter.toSink, cwOn, original] at o1 o2 ⊢
        simp [o1, o2]
      | writer c =>
        have hne : newWriter env e ≠ WriteCloser.nil := by
          rw [hw]
          intro hc
          cases hc
        have hin : eligible env req ((cwOriginal c).toSink.Header (matchStart r e, []))
            = false := eligible_matchHeader env req r.header e (newWriter_ne_nil env e hne)
        rw [Handler_match env _ req r e c hel hneg hw, Handler_match env _ req r e c hel hneg hw,
          Handler_passthrough_any env _ (cwOriginal c).toSink req _ hin]
        obtain ⟨o1, o2, o3, o4⟩ := run_cwOn_obs (WriteCloser.writer c) (p req)
          ((cwOriginal c).toSink.note
            (Event.serve false ((cwOriginal c).toSink.Header (matchStart r e, [])))
            (matchStart r e, [])).1 (matchStart r e) [] rfl rfl
        have hst : (cwOriginal c).toSink.note
            (Event.serve false ((cwOriginal c).toSink.Header (matchStart r e, [])))
            (matchStart r e, [])
            = (((cwOriginal c).toSink.note
                (Event.serve false ((cwOriginal c).toSink.Header (matchStart r e, [])))
                (matchStart r e, [])).1, []) := rfl
        rw [hst]
        simp only [serve, matchEnd, compressWriter.toSink, cwOriginal, cwOn, original]
          at o1 o2 o3 o4 ⊢
        simp [o1, o2, o3, o4]

/-! ## The claims at concrete inputs -/

/-- C1 at the test-suite handler (status 200, then one write), a request
that accepts gzip and deflate, and a fresh sink: the body is the toy gzip
stream of the handler bytes. -/
theorem C1_witness :
    (Handler demoEnv (serve helloHandlerFunc) Response original demoRequest
        Response.fresh).1.body = [31, 139, 72, 101, 108, 108, 111, 0] := by
  obtain ⟨c, hc, -, h, -⟩ := C1_body_is_compressed demoEnv helloHandlerFunc demoRequest
    Response.fresh "gzip" (by decide) (by decide) (by decide) (by decide) (by decide)
    (by simp [demoEnv, goFlateNewWriter, DefaultCompression])
  rcases hc with ⟨-, hc⟩ | ⟨hd, -⟩
  · rw [h [Op.WriteHeader 200, Op.Write [72, 101, 108, 108, 111]] rfl, hc]
    decide
  · exact absurd hd (by decide)

/-- C2 at a request that accepts gzip and deflate: the first-offer
negotiator chooses gzip, and Handler is the run of the handler on the
wrapper bound to the gzip compressor, followed by its close. -/
theorem C2_witness :
    Handler demoEnv (serve helloHandlerFunc) Response original demoRequest Response.fresh
      = matchEnd toyGzip ((helloHandlerFunc demoRequest).run (cwOriginal toyGzip).toSink
          (matchStart Response.fresh "gzip", [])) ∧
    (matchStart Response.fresh "gzip").header.vals ContentEncoding = ["gzip"] ∧
    (matchStart Response.fresh "gzip").header.vals Vary = [AcceptEncoding] := by
  obtain ⟨⟨c, hc, hH, -⟩, -, -, h1, -, h2, -⟩ := C2_headers_at_invocation demoEnv
    helloHandlerFunc demoRequest Response.fresh "gzip" (by decide) (by decide) (by decide)
    (by decide) (by decide) (by simp [demoEnv, goFlateNewWriter, DefaultCompression])
  rcases hc with ⟨-, hc⟩ | ⟨hd, -⟩
  · subst hc
    exact ⟨hH (serve helloHandlerFunc), h1, h2⟩
  · exact absurd hd (by decide)

/-- C3 at a request that accepts only an encoding that is not offered. -/
theorem C3_witness :
    (Handler demoEnv (serve helloHandlerFunc) Response original
        (mkRequest "GET" ["br"] "text/html") Response.fresh).1.statuses = [406] ∧
    (Handler demoEnv (serve helloHandlerFunc) Response original
        (mkRequest "GET" ["br"] "text/html") Response.fresh).1.body = notAcceptableBody :=
  have h := C3_not_acceptable demoEnv (serve helloHandlerFunc)
    (mkRequest "GET" ["br"] "text/html") Response.fresh ""
    (by decide) (by decide) (by decide) (by decide)
  ⟨h.2.1, h.2.2.1⟩

/-- C4 at a HEAD request that accepts gzip and deflate. -/
theorem C4_witness :
    Handler demoEnv (serve helloHandlerFunc) Response original
        (mkRequest "HEAD" ["gzip", "deflate"] "text/plain") Response.fresh
      = (⟨((helloHandlerFunc (mkRequest "HEAD" ["gzip", "deflate"] "text/plain")).run
              original Response.fresh).1.header,
          ((helloHandlerFunc (mkRequest "HEAD" ["gzip", "deflate"] "text/plain")).run
              original Response.fresh).1.calls,
          Response.fresh.trace ++ [Event.serve false Response.fresh.header,
            Event.serveEnd ((helloHandlerFunc
              (mkRequest "HEAD" ["gzip", "deflate"] "text/plain")).run
                original Response.fresh).2]⟩,
         ((helloHandlerFunc (mkRequest "HEAD" ["gzip", "deflate"] "text/plain")).run
            original Response.fresh).2) :=
  C4_passthrough demoEnv helloHandlerFunc
    (mkRequest "HEAD" ["gzip", "deflate"] "text/plain") Response.fresh
    (Or.inl (by decide))

/-- C5 at a request whose own Content-Type is an image type (the calls on
the sink are those of the handler), and at a request whose own Content-Type
is text while the response declares an image type (Handler compresses). -/
theorem C5_witness :
    (Handler demoEnv (serve helloHandlerFunc) Response original
        (mkRequest "GET" ["gzip"] "image/png") Response.fresh).1.calls
      = ((helloHandlerFunc (mkRequest "GET" ["gzip"] "image/png")).run
          original Response.fresh).1.calls ∧
    Handler demoEnv (serve helloHandlerFunc) Response original
        (mkRequest "GET" ["gzip"] "text/plain")
        ⟨Response.fresh.header.Set ContentType "image/png", Response.fresh.calls,
          Response.fresh.trace⟩
      = matchEnd toyGzip ((serve helloHandlerFunc) _ (cwOriginal toyGzip).toSink
          (mkRequest "GET" ["gzip"] "text/plain")
          (matchStart ⟨Response.fresh.header.Set ContentType "image/png",
            Response.fresh.calls, Response.fresh.trace⟩ "gzip", [])) :=
  ⟨congrArg (fun x => x.1.calls)
    ((C5_request_content_type demoEnv helloHandlerFunc
      (mkRequest "GET" ["gzip"] "image/png") Response.fresh).1 (by decide)),
   (C5_request_content_type demoEnv helloHandlerFunc
      (mkRequest "GET" ["gzip"] "text/plain") Response.fresh).2.1 "image/png" "gzip" toyGzip
      (serve helloHandlerFunc) (by decide) (by decide) (by decide) (by decide)
      (Or.inl ⟨rfl, rfl⟩)⟩

/-- C7 at a handler that writes and then panics: the calls on the sink are
those of the run followed by the chunks of the close, and the outcome is the
panic of the handler. -/
theorem C7_witness :
    (Handler demoEnv (serve panicking) Response original demoRequest Response.fresh).1.calls
      = ((panicking demoRequest).run (cwOriginal toyGzip).toSink
          (matchStart Response.fresh "gzip", [])).1.1.calls
        ++ (toyGzip.onClose ((panicking demoRequest).writes (cwOriginal toyGzip).toSink
              (matchStart Response.fresh "gzip", []))).map
            (fun x => Call.Write x
              ((panicking demoRequest).run (cwOriginal toyGzip).toSink
                (matchStart Response.fresh "gzip", [])).1.1.header) ∧
    (Handler demoEnv (serve panicking) Response original demoRequest Response.fresh).1.since
        Response.fresh
      = matchTrace "gzip" (matchHeader Response.fresh.header "gzip")
          ((panicking demoRequest).writes (cwOriginal toyGzip).toSink
            (matchStart Response.fresh "gzip", []))
          ((panicking demoRequest).run (cwOriginal toyGzip).toSink
            (matchStart Response.fresh "gzip", [])).2 ∧
    (Handler demoEnv (serve panicking) Response original demoRequest Response.fresh).2
      = Outcome.panicked :=
  have h := (C7_close_exactly_once demoEnv panicking demoRequest Response.fresh).2.1
    "gzip" toyGzip (by decide) (by decide) (by decide) (by decide) (Or.inl ⟨rfl, rfl⟩)
  ⟨h.2.1, h.2.2.2.1, h.2.2.2.2.trans (by decide)⟩

/-- C9 at a request that accepts only deflate. -/
theorem C9_witness :
    ∃ c, newWriter demoEnv "deflate" = WriteCloser.writer c ∧
      (cwOriginal c).w = WriteCloser.writer c ∧
      Handler demoEnv (serve helloHandlerFunc) Response original
          (mkRequest "GET" ["deflate"] "text/plain") Response.fresh
        = matchEnd c ((helloHandlerFunc (mkRequest "GET" ["deflate"] "text/plain")).run
            (cwOriginal c).toSink
            (matchStart Response.fresh "deflate", [])) :=
  C9_writer_not_nil demoEnv helloHandlerFunc (mkRequest "GET" ["deflate"] "text/plain")
    Response.fresh "deflate" (by decide) (by decide) (by decide) (by decide) (by decide)
    (by simp [demoEnv, goFlateNewWriter, DefaultCompression])

end Compress
